import Mathlib

/-!
Verification development for the Barkr matchmaking backend
(`src/backend/app.py`, a Flask application over SQLite).

The embedding models the two relevant tables (`dogs`, `likes`) as lists of
records, and each route handler that touches them (`swipe`, `songgate`,
`finalize_like_then_redirect`, `discover`, `matches`) as pure functions on
that state.  HTTP redirects and flash messages are represented by small
result enums; `CURRENT_TIMESTAMP` is passed in as an explicit `now : Nat`
argument; `random.choice` is modelled by an adversarially supplied index
`pick` reduced modulo the list length.
-/

namespace Barkr

/-- Row of the `dogs` table.  Columns not read by the core routes
(name, age, gender, breed, personality, bio, photo) are omitted;
`created_at` is modelled as a `Nat` ordering key and `id` as an `Int`
(SQLite row ids are integers). The `user_id` column carries a UNIQUE
constraint in the schema. -/
structure Dog where
  id : Int
  userId : Nat
  favoriteArtist : Option String
  createdAt : Nat
deriving Repr, DecidableEq

/-- Row of the `likes` table: `(user_id, target_dog_id)` is the PRIMARY KEY,
`value` is +1 (like) or -1 (dislike), `created_at` is the last-update time. -/
structure LikeRow where
  userId : Nat
  targetDogId : Int
  value : Int
  createdAt : Nat
deriving Repr, DecidableEq

/-- Database state: the two tables the core routes read and write.
The `users` table only backs authentication and display names, which the
core logic never branches on, so it is not modelled. -/
structure St where
  dogs : List Dog
  likes : List LikeRow
deriving Repr, DecidableEq

/-- Entry of the static audio snippet catalog `ARTIST_SONGS`:
a challenge key, song title, audio file path, and accepted answers. -/
structure Song where
  key : String
  title : String
  file : String
  answers : List String
deriving Repr, DecidableEq

/-- The module-level `ARTIST_SONGS` dict from `app.py`, transcribed verbatim
as an association list from artist tag to challenge list. -/
def ARTIST_SONGS : List (String × List Song) :=
  [ ("Drake",
      [⟨"drake_godsplan", "God\x27s Plan", "/static/audio/godsplan.mp3",
        ["god\x27s plan", "gods plan"]⟩]),
    ("Miley Cyrus",
      [⟨"miley_flowers", "Flowers", "/static/audio/flowers.mp3",
        ["Flowers", "flowers"]⟩]),
    ("Bruno Mars",
      [⟨"bruno_uptownf", "Uptown Funk", "/static/audio/uptownfunk.mp3",
        ["Uptown Funk", "uptown funk"]⟩]),
    ("The Weeknd",
      [⟨"weeknd_blinding_lights", "Blinding Lights", "/static/audio/blindinglights.mp3",
        ["blinding lights"]⟩]),
    ("Justin Timberlake",
      [⟨"justin_cstf", "Cant Stop The Feeling", "/static/audio/cstf.mp3",
        ["Cant Stop The Feeling", "Can\x27t Stop The Feeling", "cant stop the feeling"]⟩]),
    ("Dua Lipa",
      [⟨"dua_levitating", "Levitating", "/static/audio/levitating.mp3",
        ["levitating"]⟩]),
    ("Ed Sheeran",
      [⟨"ed_shape_of_you", "Shape of You", "/static/audio/shapeofyou.mp3",
        ["shape of you"]⟩]) ]

/-- Python expression `ARTIST_SONGS.get(artist, [])`: catalog lookup with
empty default.  The lookup key is case-sensitive, exactly as a dict key is. -/
def artistSongs (artist : String) : List Song :=
  match ARTIST_SONGS.find? (fun p => p.1 == artist) with
  | some p => p.2
  | none => []

/-- Predicate selecting the `likes` row keyed by `(u, d)` — the WHERE clause
`user_id = u AND target_dog_id = d`. -/
def keyIs (u : Nat) (d : Int) (r : LikeRow) : Bool :=
  r.userId == u && r.targetDogId == d

/-- SQL query `SELECT 1 FROM likes WHERE user_id = u AND target_dog_id = d
AND value = 1 LIMIT 1` turned into a boolean: does `u` hold a recorded +1
toward dog `d`. -/
def hasPlusOne (st : St) (u : Nat) (d : Int) : Bool :=
  st.likes.any (fun r => keyIs u d r && r.value == 1)

/-- SQL upsert `INSERT INTO likes (user_id, target_dog_id, value) VALUES
(u, d, v) ON CONFLICT(user_id, target_dog_id) DO UPDATE SET value=v,
created_at=CURRENT_TIMESTAMP`, acting on the bare row list.  The PRIMARY KEY
guarantees at most one row per `(user_id, target_dog_id)`, so on conflict the
matching row has its `value` and `created_at` replaced; otherwise a fresh row
is appended. -/
def upsertRows : List LikeRow → Nat → Int → Int → Nat → List LikeRow
  | [], u, d, v, t => [⟨u, d, v, t⟩]
  | r :: rs, u, d, v, t =>
    if keyIs u d r then { r with value := v, createdAt := t } :: rs
    else r :: upsertRows rs u d v t

/-- The same upsert lifted to the database state (the `dogs` table is
untouched). -/
def upsertLike (st : St) (u : Nat) (d : Int) (v : Int) (t : Nat) : St :=
  { st with likes := upsertRows st.likes u d v t }

/-- Helper `my_dog_id()`: `SELECT id FROM dogs WHERE user_id = ?` for the
session user, `fetchone` — the first (under the UNIQUE constraint, only)
matching row, or `None`. -/
def my_dog_id (st : St) (uid : Nat) : Option Int :=
  (st.dogs.find? (fun d => d.userId == uid)).map Dog.id

/-- SQL lookup `SELECT * FROM dogs WHERE id = ?`. -/
def findDog (st : St) (i : Int) : Option Dog :=
  st.dogs.find? (fun d => d.id == i)

/-- Python `str.strip()`: the string without leading and trailing
whitespace.  Written over the character list (Lean's built-in `String.trim`
does not reduce inside the kernel, which the witnesses need). -/
def pyStrip (s : String) : String :=
  String.mk (((s.data.dropWhile Char.isWhitespace).reverse.dropWhile
    Char.isWhitespace).reverse)

/-- Python `str.lower()` restricted to ASCII, which covers every string in
the catalog and every comparison the routes perform. -/
def pyLower (s : String) : String :=
  String.mk (s.data.map Char.toLower)

/-- Decimal value of a digit list. -/
def digitsToNat (l : List Char) : Nat :=
  l.foldl (fun n c => n * 10 + (c.toNat - ('0').toNat)) 0

/-- Python `int(s)` on a form string, modelled as `Option`: `none` is the
`ValueError` path.  Models decimal literals with surrounding whitespace and
an optional leading minus sign; the rarely used `+` sign and underscore
digit separators of Python are not modelled. -/
def pyInt (s : String) : Option Int :=
  match (pyStrip s).data with
  | '-' :: ds =>
    if ds ≠ [] ∧ ds.all Char.isDigit then some (-(digitsToNat ds : Int)) else none
  | ds =>
    if ds ≠ [] ∧ ds.all Char.isDigit then some ((digitsToNat ds : Int)) else none

/-- Outcome of the `swipe` route, identifying which return statement fired.
`invalid` is the flash "Invalid swipe." plus redirect to the feed;
`exn` is the uncaught `ValueError` raised by `int(dog_id)` (an HTTP 500,
no flash, no redirect); `disliked` and `recorded` redirect to the feed after
an upsert; `noOwnProfile` flashes and redirects to registration;
`targetGone` silently redirects to the feed; `routeToGate` redirects to
`/songgate/<dog_id>` with no store write. -/
inductive SwipeResp where
  | invalid
  | exn
  | disliked
  | noOwnProfile
  | targetGone
  | routeToGate (dogId : Int)
  | recorded
deriving Repr, DecidableEq

/-- The `swipe` route handler.  `dogIdForm` and `actionForm` are the raw
`request.form` fields (absent field = `none`); `uid` is the session user;
`now` is `CURRENT_TIMESTAMP`.  Returns the new database state and which
return path was taken, following the source line by line:
guard, `int()` conversion, dislike branch, own-profile check, target-owner
lookup, mutuality check, and the two upserts. -/
def swipe (st : St) (uid : Nat) (dogIdForm actionForm : Option String)
    (now : Nat) : St × SwipeResp :=
  let dogIdS := dogIdForm.getD ""
  if dogIdS == "" || !(actionForm == some "like" || actionForm == some "dislike") then
    (st, .invalid)
  else
    match pyInt dogIdS with
    | none => (st, .exn)
    | some dogId =>
      if actionForm == some "dislike" then
        (upsertLike st uid dogId (-1) now, .disliked)
      else
        match my_dog_id st uid with
        | none => (st, .noOwnProfile)
        | some mine =>
          match findDog st dogId with
          | none => (st, .targetGone)
          | some target =>
            if hasPlusOne st target.userId mine then
              (st, .routeToGate dogId)
            else
              (upsertLike st uid dogId 1 now, .recorded)

/-- Store effect of `finalize_like_then_redirect`: the unconditional +1
upsert.  The subsequent flash and redirect (to `/matches` when `matched`)
carry no store effect and are represented by the caller's result value. -/
def finalize_like_then_redirect (st : St) (uid : Nat) (target_dog_id : Int)
    (now : Nat) : St :=
  upsertLike st uid target_dog_id 1 now

/-- Outcome of the `songgate` route.  `profileGone` flashes "That profile is
gone." and redirects to the feed; `skippedFinalized` and `passedFinalized`
are the two `finalize_like_then_redirect(dog_id, matched=True)` calls
(flash "match", redirect to `/matches`); `redirectWithKey` is the redirect
back to the gate with a freshly picked `?key=`; `unknownChallenge` flashes
"Audio not found." and redirects to the feed; `retry` flashes the
wrong-answer message and re-renders the page for the same key;
`renderChallenge` renders the challenge page. -/
inductive GateResp where
  | profileGone
  | skippedFinalized
  | redirectWithKey (key : String)
  | unknownChallenge
  | passedFinalized
  | retry (key : String)
  | renderChallenge (key : String)
deriving Repr, DecidableEq

/-- Python `random.choice(choices)` modelled with an externally supplied
index, reduced modulo the (nonempty) list length. -/
def pickChoice (choices : List Song) (pick : Nat) : Song :=
  choices.getD (pick % choices.length) ⟨"", "", "", []⟩

/-- The `songgate` route handler.  `keyParam` is the `?key=` query parameter,
`isPost` distinguishes POST from GET, `answerForm` is the posted answer
field, `pick` feeds `random.choice`, `now` is `CURRENT_TIMESTAMP`.
Mirrors the source order: target lookup, artist strip, catalog lookup,
empty-catalog finalize, key pick and redirect, snippet lookup, POST answer
normalization (strip + lowercase on both sides) and comparison. -/
def songgate (st : St) (uid : Nat) (dogId : Int) (keyParam : Option String)
    (isPost : Bool) (answerForm : Option String) (pick : Nat) (now : Nat) :
    St × GateResp :=
  match findDog st dogId with
  | none => (st, .profileGone)
  | some target =>
    let artist := pyStrip (target.favoriteArtist.getD "")
    let choices := artistSongs artist
    if choices.isEmpty then
      (finalize_like_then_redirect st uid dogId now, .skippedFinalized)
    else
      let key := keyParam.getD ""
      if key == "" then
        (st, .redirectWithKey (pickChoice choices pick).key)
      else
        match choices.find? (fun c => c.key == key) with
        | none => (st, .unknownChallenge)
        | some snippet =>
          if isPost then
            let guess := pyLower (pyStrip (answerForm.getD ""))
            if (snippet.answers.map (fun a => pyLower a)).contains guess then
              (finalize_like_then_redirect st uid dogId now, .passedFinalized)
            else
              (st, .retry key)
          else
            (st, .renderChallenge key)

/-- Candidate predicate of the `discover` feed query: a dog the viewer does
not own and has no `likes` row toward (of either sign). -/
def feedCand (st : St) (uid : Nat) (d : Dog) : Bool :=
  d.userId != uid && !(st.likes.any (fun r => r.userId == uid && r.targetDogId == d.id))

/-- `ORDER BY created_at DESC LIMIT 1` over a candidate list: a maximum of
the `createdAt` key, or `none` on the empty list.  SQLite leaves the order
among equal timestamps unspecified; this model keeps the last-listed row
among ties. -/
def maxByCreated : List Dog → Option Dog
  | [] => none
  | d :: ds =>
    match maxByCreated ds with
    | none => some d
    | some b => if b.createdAt ≥ d.createdAt then some b else some d

/-- The `discover` route query: next card for the viewer — the
most-recently-created dog that is not the viewer's own and that the viewer
has not swiped on. -/
def discover (st : St) (uid : Nat) : Option Dog :=
  maxByCreated (st.dogs.filter (feedCand st uid))

/-- Membership predicate of the `matches` route's pending query: dogs whose
owner holds a +1 toward my dog, where I hold no +1 toward them (the LEFT
JOIN anti-join is on `value = 1` only), owner not me.  The SQL ORDER BY
affects presentation order only, so the result is modelled as a filtered
list. -/
def pending_matches (st : St) (uid : Nat) (mydog : Int) : List Dog :=
  st.dogs.filter (fun d =>
    hasPlusOne st d.userId mydog && !(hasPlusOne st uid d.id) && d.userId != uid)

/-- Membership predicate of the `matches` route's confirmed query: dogs I
hold a +1 toward whose owner holds a +1 toward my dog, owner not me. -/
def confirmed_matches (st : St) (uid : Nat) (mydog : Int) : List Dog :=
  st.dogs.filter (fun d =>
    d.userId != uid && hasPlusOne st uid d.id && hasPlusOne st d.userId mydog)

/-- Key uniqueness of the `likes` table: no two rows share the
`(user_id, target_dog_id)` PRIMARY KEY.  Every SQLite state satisfies this;
it is the invariant the upsert maintains. -/
def noDupKeys : List LikeRow → Bool
  | [] => true
  | r :: rs => !(rs.any (fun r2 => keyIs r.userId r.targetDogId r2)) && noDupKeys rs

/-- One store-mutating HTTP request: a swipe form post or a song-gate
request.  (`discover` and `matches` are read-only.) -/
inductive Ev where
  | swipeEv (uid : Nat) (dogIdForm actionForm : Option String)
  | gateEv (uid : Nat) (dogId : Int) (key : Option String) (isPost : Bool)
      (answer : Option String) (pick : Nat)
deriving Repr, DecidableEq

/-- State transition of a single request: the store component of the
corresponding handler. -/
def stepEv (st : St) (e : Ev) (now : Nat) : St :=
  match e with
  | .swipeEv uid f a => (swipe st uid f a now).1
  | .gateEv uid dogId key post ans pick => (songgate st uid dogId key post ans pick now).1

/-- Iterated identical swipe submissions (browser resubmission model). -/
def swipeIter (st : St) (uid : Nat) (f a : Option String) (now : Nat) : Nat → St
  | 0 => st
  | n + 1 => (swipe (swipeIter st uid f a now n) uid f a now).1

/-- Iterated identical upserts. -/
def upsertIter (st : St) (u : Nat) (d : Int) (v : Int) (t : Nat) : Nat → St
  | 0 => st
  | n + 1 => upsertLike (upsertIter st u d v t n) u d v t

/-- Consecutive POST submissions of a list of answers to the same gate key. -/
def gatePosts (st : St) (uid : Nat) (dogId : Int) (key : String)
    (answers : List String) (now : Nat) : St :=
  answers.foldl (fun s a => (songgate s uid dogId (some key) true (some a) 0 now).1) st

/-! Concrete states used by witnesses and counterexamples. -/

/-- Dog of user 1, favorite artist "Drake" (one challenge in the catalog). -/
def dogW1 : Dog := ⟨1, 1, some "Drake", 10⟩

/-- Dog of user 2, no favorite artist set. -/
def dogW2 : Dog := ⟨2, 2, none, 20⟩

/-- Two users, two dogs, no swipes yet. -/
def stW : St := ⟨[dogW1, dogW2], []⟩

/-- Two users, two dogs; user 1 already likes dog 2, so a like by user 2 on
dog 1 completes mutuality. -/
def stMut : St := ⟨[dogW1, dogW2], [⟨1, 2, 1, 5⟩]⟩

/-- Empty database. -/
def stEmpty : St := ⟨[], []⟩

/-- One dog whose favorite artist has no challenges in the catalog. -/
def stray : St := ⟨[⟨1, 1, some "Nobody", 0⟩], []⟩

/-- Dog of user 2 used in the dislike scenario. -/
def dogP : Dog := ⟨20, 2, none, 0⟩

/-- User 2 likes dog 10 (owned by user 1); user 1 dislikes dog 20 (owned by
user 2). -/
def stC3 : St := ⟨[⟨10, 1, none, 0⟩, dogP], [⟨2, 10, 1, 0⟩, ⟨1, 20, -1, 1⟩]⟩

/-- One dog whose favorite-artist tag is the empty string. -/
def stW8 : St := ⟨[⟨1, 1, some "", 0⟩], []⟩

/-! Lemmas about the row-level upsert, shared by the claim theorems. -/

lemma keyIs_eq_true {u : Nat} {d : Int} {r : LikeRow} :
    keyIs u d r = true ↔ r.userId = u ∧ r.targetDogId = d := by
  simp [keyIs]

lemma keyIs_update {a u : Nat} {b d : Int} {r : LikeRow} {v : Int} {t : Nat} :
    keyIs a b { r with value := v, createdAt := t } = keyIs a b r := rfl

lemma dogs_upsertLike (st : St) (u : Nat) (d : Int) (v : Int) (t : Nat) :
    (upsertLike st u d v t).dogs = st.dogs := rfl

lemma filter_nil_of_any_false {α : Type} {p : α → Bool} :
    ∀ {l : List α}, l.any p = false → l.filter p = [] := by
  intro l h
  induction l with
  | nil => rfl
  | cons x xs ih =>
    simp only [List.any_cons, Bool.or_eq_false_iff] at h
    simp [List.filter_cons, h.1, ih h.2]

lemma upsertRows_idem (l : List LikeRow) (u : Nat) (d : Int) (v : Int) (t : Nat) :
    upsertRows (upsertRows l u d v t) u d v t = upsertRows l u d v t := by
  induction l with
  | nil => simp [upsertRows, keyIs]
  | cons r rs ih =>
    by_cases h : keyIs u d r = true
    · simp [upsertRows, h, keyIs_update]
    · simp [upsertRows, h, ih]

lemma any_plusOne_upsertRows_one (l : List LikeRow) (u : Nat) (d : Int) (t : Nat) :
    (upsertRows l u d 1 t).any (fun r => keyIs u d r && r.value == 1) = true := by
  induction l with
  | nil => simp [upsertRows, keyIs]
  | cons r rs ih =>
    by_cases h : keyIs u d r = true
    · simp [upsertRows, h, keyIs_update]
    · simp [upsertRows, h, ih]

lemma any_plusOne_upsertRows_neg (l : List LikeRow) (u : Nat) (d : Int) (v : Int) (t : Nat)
    (h : l.any (fun r => keyIs u d r && r.value == 1) = false) (hv : v ≠ 1) :
    (upsertRows l u d v t).any (fun r => keyIs u d r && r.value == 1) = false := by
  induction l with
  | nil => simp [upsertRows, keyIs, hv]
  | cons r rs ih =>
    simp only [List.any_cons, Bool.or_eq_false_iff] at h
    by_cases hk : keyIs u d r = true
    · simp [upsertRows, hk, keyIs_update, h.2, hv]
    · simp [upsertRows, hk, ih h.2]

lemma any_plusOne_upsertRows_ne (l : List LikeRow) (a u : Nat) (b d : Int) (v : Int) (t : Nat)
    (hne : a ≠ u ∨ b ≠ d) :
    (upsertRows l u d v t).any (fun r => keyIs a b r && r.value == 1) =
      l.any (fun r => keyIs a b r && r.value == 1) := by
  induction l with
  | nil =>
    simp only [upsertRows, List.any_cons, List.any_nil, Bool.or_false]
    rcases hne with h | h <;> simp [keyIs, h, Ne.symm h]
  | cons r rs ih =>
    by_cases hk : keyIs u d r = true
    · have hr := keyIs_eq_true.mp hk
      have hfalse : keyIs a b r = false := by
        have hnot : ¬keyIs a b r = true := by
          intro hc
          rcases keyIs_eq_true.mp hc with ⟨h1, h2⟩
          rcases hne with h | h
          · exact h (h1.symm.trans hr.1)
          · exact h (h2.symm.trans hr.2)
        simpa using hnot
      simp [upsertRows, hk, keyIs_update, hfalse]
    · simp [upsertRows, hk, ih]

lemma hasPlusOne_upsert_one (st : St) (u : Nat) (d : Int) (t : Nat) :
    hasPlusOne (upsertLike st u d 1 t) u d = true :=
  any_plusOne_upsertRows_one st.likes u d t

lemma hasPlusOne_upsert_neg (st : St) (u : Nat) (d : Int) (v : Int) (t : Nat)
    (h : hasPlusOne st u d = false) (hv : v ≠ 1) :
    hasPlusOne (upsertLike st u d v t) u d = false :=
  any_plusOne_upsertRows_neg st.likes u d v t h hv

lemma hasPlusOne_upsert_ne (st : St) (a u : Nat) (b d : Int) (v : Int) (t : Nat)
    (hne : a ≠ u ∨ b ≠ d) :
    hasPlusOne (upsertLike st u d v t) a b = hasPlusOne st a b :=
  any_plusOne_upsertRows_ne st.likes a u b d v t hne

lemma upsertLike_idem (st : St) (u : Nat) (d : Int) (v : Int) (t : Nat) :
    upsertLike (upsertLike st u d v t) u d v t = upsertLike st u d v t := by
  simp [upsertLike, upsertRows_idem]

lemma my_dog_id_upsert (st : St) (uid u : Nat) (d : Int) (v : Int) (t : Nat) :
    my_dog_id (upsertLike st u d v t) uid = my_dog_id st uid := rfl

lemma findDog_upsert (st : St) (i : Int) (u : Nat) (d : Int) (v : Int) (t : Nat) :
    findDog (upsertLike st u d v t) i = findDog st i := rfl

lemma filter_upsertRows_self (u : Nat) (d : Int) (v : Int) (t : Nat) :
    ∀ l : List LikeRow, noDupKeys l = true →
      (upsertRows l u d v t).filter (keyIs u d) = [⟨u, d, v, t⟩] := by
  intro l
  induction l with
  | nil => intro _; simp [upsertRows, List.filter, keyIs]
  | cons r rs ih =>
    intro h
    simp only [noDupKeys, Bool.and_eq_true, Bool.not_eq_true', List.any_eq_false] at h
    by_cases hk : keyIs u d r = true
    · rcases keyIs_eq_true.mp hk with ⟨h1, h2⟩
      have hnone : rs.filter (keyIs u d) = [] := by
        apply filter_nil_of_any_false
        simp only [List.any_eq_false]
        intro x hx
        have := h.1 x hx
        rw [h1, h2] at this
        simp [this]
      obtain ⟨ru, rd, rv, rt⟩ := r
      simp only at h1 h2
      subst h1; subst h2
      simp [upsertRows, hk, List.filter, keyIs, hnone]
    · have h2 : noDupKeys rs = true := h.2
      simp [upsertRows, hk, List.filter_cons, ih h2]

lemma filter_upsertRows_ne (a u : Nat) (b d : Int) (v : Int) (t : Nat)
    (hne : a ≠ u ∨ b ≠ d) :
    ∀ l : List LikeRow,
      (upsertRows l u d v t).filter (keyIs a b) = l.filter (keyIs a b) := by
  have hnew : keyIs a b (⟨u, d, v, t⟩ : LikeRow) = false := by
    have hnot : ¬keyIs a b (⟨u, d, v, t⟩ : LikeRow) = true := by
      intro hc
      rcases keyIs_eq_true.mp hc with ⟨h1, h2⟩
      rcases hne with h | h
      · exact h (by simpa using h1.symm)
      · exact h (by simpa using h2.symm)
    simpa using hnot
  intro l
  induction l with
  | nil => simp [upsertRows, List.filter, hnew]
  | cons r rs ih =>
    by_cases hk : keyIs u d r = true
    · have hfalse : keyIs a b r = false := by
        have hr := keyIs_eq_true.mp hk
        have hnot : ¬keyIs a b r = true := by
          intro hc
          rcases keyIs_eq_true.mp hc with ⟨h1, h2⟩
          rcases hne with h | h
          · exact h (h1.symm.trans hr.1)
          · exact h (h2.symm.trans hr.2)
        simpa using hnot
      simp [upsertRows, hk, List.filter_cons, keyIs_update, hfalse]
    · have hcons : upsertRows (r :: rs) u d v t = r :: upsertRows rs u d v t := by
        simp [upsertRows, hk]
      rw [hcons]
      simp only [List.filter_cons, ih]

lemma any_keyIs_upsertRows (a u : Nat) (b d : Int) (v : Int) (t : Nat) :
    ∀ l : List LikeRow,
      (upsertRows l u d v t).any (fun r2 => keyIs a b r2) =
        (l.any (fun r2 => keyIs a b r2) || keyIs a b (⟨u, d, v, t⟩ : LikeRow)) := by
  intro l
  induction l with
  | nil => simp [upsertRows]
  | cons r rs ih =>
    by_cases hk : keyIs u d r = true
    · have hr := keyIs_eq_true.mp hk
      have hsame : keyIs a b (⟨u, d, v, t⟩ : LikeRow) = keyIs a b r := by
        simp [keyIs, hr.1, hr.2]
      have hcons : upsertRows (r :: rs) u d v t =
          { r with value := v, createdAt := t } :: rs := by
        simp [upsertRows, hk]
      rw [hcons]
      simp only [List.any_cons, keyIs_update, hsame]
      cases keyIs a b r <;> cases rs.any (fun r2 => keyIs a b r2) <;> rfl
    · have hcons : upsertRows (r :: rs) u d v t = r :: upsertRows rs u d v t := by
        simp [upsertRows, hk]
      rw [hcons]
      simp only [List.any_cons, ih]
      cases keyIs a b r <;> cases rs.any (fun r2 => keyIs a b r2) <;>
        cases keyIs a b (⟨u, d, v, t⟩ : LikeRow) <;> rfl

lemma noDupKeys_upsertRows (u : Nat) (d : Int) (v : Int) (t : Nat) :
    ∀ l : List LikeRow, noDupKeys l = true →
      noDupKeys (upsertRows l u d v t) = true := by
  intro l
  induction l with
  | nil => intro _; simp [upsertRows, noDupKeys]
  | cons r rs ih =>
    intro h
    simp only [noDupKeys, Bool.and_eq_true, Bool.not_eq_true', List.any_eq_false] at h
    by_cases hk : keyIs u d r = true
    · simp only [upsertRows, hk, if_true, noDupKeys, Bool.and_eq_true, Bool.not_eq_true',
        List.any_eq_false]
      exact ⟨h.1, h.2⟩
    · have hih := ih h.2
      simp only [upsertRows, hk, if_false, noDupKeys, Bool.and_eq_true, Bool.not_eq_true']
      refine ⟨?_, hih⟩
      rw [any_keyIs_upsertRows]
      have h1 : rs.any (fun r2 => keyIs r.userId r.targetDogId r2) = false := by
        simp only [List.any_eq_false]
        exact h.1
      have h2 : keyIs r.userId r.targetDogId (⟨u, d, v, t⟩ : LikeRow) = false := by
        have hnot : ¬keyIs r.userId r.targetDogId (⟨u, d, v, t⟩ : LikeRow) = true := by
          intro hc
          rcases keyIs_eq_true.mp hc with ⟨h1, h2⟩
          apply hk
          apply keyIs_eq_true.mpr
          simp only at h1 h2
          exact ⟨h1.symm, h2.symm⟩
        simpa using hnot
      rw [h1, h2]
      rfl

lemma noDupKeys_upsertLike (st : St) (u : Nat) (d : Int) (v : Int) (t : Nat)
    (h : noDupKeys st.likes = true) :
    noDupKeys (upsertLike st u d v t).likes = true :=
  noDupKeys_upsertRows u d v t st.likes h

/-! Branch equations for `swipe`, one per return statement of the route. -/

lemma swipe_invalid (st : St) (uid : Nat) (f a : Option String) (now : Nat)
    (hg : f.getD "" = "" ∨ (a ≠ some "like" ∧ a ≠ some "dislike")) :
    swipe st uid f a now = (st, .invalid) := by
  rcases hg with h | ⟨h1, h2⟩
  · simp [swipe, h]
  · simp [swipe, h1, h2]

lemma swipe_exn (st : St) (uid : Nat) (f a : Option String) (now : Nat)
    (h1 : f.getD "" ≠ "")
    (h2 : a = some "like" ∨ a = some "dislike")
    (hp : pyInt (f.getD "") = none) :
    swipe st uid f a now = (st, .exn) := by
  rcases h2 with h | h <;> simp [swipe, h1, h, hp]

lemma swipe_dislike (st : St) (uid : Nat) (f a : Option String) (now : Nat) (dogId : Int)
    (h1 : f.getD "" ≠ "")
    (ha : a = some "dislike")
    (hp : pyInt (f.getD "") = some dogId) :
    swipe st uid f a now = (upsertLike st uid dogId (-1) now, .disliked) := by
  simp [swipe, h1, ha, hp]

lemma swipe_noOwnProfile (st : St) (uid : Nat) (f a : Option String) (now : Nat) (dogId : Int)
    (h1 : f.getD "" ≠ "")
    (ha : a = some "like")
    (hp : pyInt (f.getD "") = some dogId)
    (hm : my_dog_id st uid = none) :
    swipe st uid f a now = (st, .noOwnProfile) := by
  simp [swipe, h1, ha, hp, hm]

lemma swipe_targetGone (st : St) (uid : Nat) (f a : Option String) (now : Nat) (dogId : Int)
    (mine : Int)
    (h1 : f.getD "" ≠ "")
    (ha : a = some "like")
    (hp : pyInt (f.getD "") = some dogId)
    (hm : my_dog_id st uid = some mine)
    (ht : findDog st dogId = none) :
    swipe st uid f a now = (st, .targetGone) := by
  simp [swipe, h1, ha, hp, hm, ht]

lemma swipe_routeToGate (st : St) (uid : Nat) (f a : Option String) (now : Nat) (dogId : Int)
    (mine : Int) (target : Dog)
    (h1 : f.getD "" ≠ "")
    (ha : a = some "like")
    (hp : pyInt (f.getD "") = some dogId)
    (hm : my_dog_id st uid = some mine)
    (ht : findDog st dogId = some target)
    (hmut : hasPlusOne st target.userId mine = true) :
    swipe st uid f a now = (st, .routeToGate dogId) := by
  simp [swipe, h1, ha, hp, hm, ht, hmut]

lemma swipe_recorded (st : St) (uid : Nat) (f a : Option String) (now : Nat) (dogId : Int)
    (mine : Int) (target : Dog)
    (h1 : f.getD "" ≠ "")
    (ha : a = some "like")
    (hp : pyInt (f.getD "") = some dogId)
    (hm : my_dog_id st uid = some mine)
    (ht : findDog st dogId = some target)
    (hmut : hasPlusOne st target.userId mine = false) :
    swipe st uid f a now = (upsertLike st uid dogId 1 now, .recorded) := by
  simp [swipe, h1, ha, hp, hm, ht, hmut]

/-- Submitting the identical swipe twice leaves the same store as once:
every branch of `swipe` either leaves the store unchanged or performs a
keyed upsert whose repetition is absorbed. -/
lemma swipe_state_idem (st : St) (uid : Nat) (f a : Option String) (now : Nat) :
    (swipe (swipe st uid f a now).1 uid f a now).1 = (swipe st uid f a now).1 := by
  by_cases h1 : f.getD "" = ""
  · simp [swipe_invalid _ uid f a now (Or.inl h1)]
  · by_cases hl : a = some "like"
    · cases hp : pyInt (f.getD "") with
      | none => simp [swipe_exn _ uid f a now h1 (Or.inl hl) hp]
      | some dogId =>
        cases hm : my_dog_id st uid with
        | none => simp [swipe_noOwnProfile _ uid f a now dogId h1 hl hp hm]
        | some mine =>
          cases ht : findDog st dogId with
          | none => simp [swipe_targetGone _ uid f a now dogId mine h1 hl hp hm ht]
          | some target =>
            by_cases hmut : hasPlusOne st target.userId mine = true
            · simp [swipe_routeToGate _ uid f a now dogId mine target h1 hl hp hm ht hmut]
            · have hmut' : hasPlusOne st target.userId mine = false := by simpa using hmut
              rw [swipe_recorded _ uid f a now dogId mine target h1 hl hp hm ht hmut']
              have hm2 : my_dog_id (upsertLike st uid dogId 1 now) uid = some mine := by
                rw [my_dog_id_upsert]; exact hm
              have ht2 : findDog (upsertLike st uid dogId 1 now) dogId = some target := by
                rw [findDog_upsert]; exact ht
              by_cases hsame : target.userId = uid ∧ mine = dogId
              · have hmut2 : hasPlusOne (upsertLike st uid dogId 1 now) target.userId mine
                    = true := by
                  rw [hsame.1, hsame.2]; exact hasPlusOne_upsert_one st uid dogId now
                rw [swipe_routeToGate _ uid f a now dogId mine target h1 hl hp hm2 ht2 hmut2]
              · have hne : target.userId ≠ uid ∨ mine ≠ dogId := by
                  by_cases hq : target.userId = uid
                  · right; intro h2; exact hsame ⟨hq, h2⟩
                  · left; exact hq
                have hmut2 : hasPlusOne (upsertLike st uid dogId 1 now) target.userId mine
                    = false := by
                  rw [hasPlusOne_upsert_ne st target.userId uid mine dogId 1 now hne]
                  exact hmut'
                rw [swipe_recorded _ uid f a now dogId mine target h1 hl hp hm2 ht2 hmut2]
                exact congrArg Prod.fst
                  (congrArg (fun s => (s, SwipeResp.recorded))
                    (upsertLike_idem st uid dogId 1 now))
    · by_cases hd : a = some "dislike"
      · cases hp : pyInt (f.getD "") with
        | none => simp [swipe_exn _ uid f a now h1 (Or.inr hd) hp]
        | some dogId =>
          rw [swipe_dislike _ uid f a now dogId h1 hd hp]
          rw [swipe_dislike _ uid f a now dogId h1 hd hp]
          exact congrArg Prod.fst
            (congrArg (fun s => (s, SwipeResp.disliked))
              (upsertLike_idem st uid dogId (-1) now))
      · simp [swipe_invalid _ uid f a now (Or.inr ⟨hl, hd⟩)]

/-! Branch equations for `songgate`, one per return statement of the route. -/

lemma songgate_profileGone (st : St) (uid : Nat) (dogId : Int) (k : Option String)
    (post : Bool) (ans : Option String) (pick now : Nat)
    (ht : findDog st dogId = none) :
    songgate st uid dogId k post ans pick now = (st, .profileGone) := by
  simp [songgate, ht]

lemma songgate_skip (st : St) (uid : Nat) (dogId : Int) (k : Option String)
    (post : Bool) (ans : Option String) (pick now : Nat) (target : Dog)
    (ht : findDog st dogId = some target)
    (hc : artistSongs (pyStrip (target.favoriteArtist.getD "")) = []) :
    songgate st uid dogId k post ans pick now =
      (finalize_like_then_redirect st uid dogId now, .skippedFinalized) := by
  simp [songgate, ht, hc]

lemma isEmpty_false_of_ne_nil {l : List Song} (h : l ≠ []) : l.isEmpty = false := by
  cases l with
  | nil => exact absurd rfl h
  | cons x xs => rfl

lemma songgate_redirectKey (st : St) (uid : Nat) (dogId : Int) (k : Option String)
    (post : Bool) (ans : Option String) (pick now : Nat) (target : Dog)
    (ht : findDog st dogId = some target)
    (hc : artistSongs (pyStrip (target.favoriteArtist.getD "")) ≠ [])
    (hk : k.getD "" = "") :
    songgate st uid dogId k post ans pick now =
      (st, .redirectWithKey
        (pickChoice (artistSongs (pyStrip (target.favoriteArtist.getD ""))) pick).key) := by
  simp [songgate, ht, hk, isEmpty_false_of_ne_nil hc]

lemma songgate_unknown (st : St) (uid : Nat) (dogId : Int) (k : Option String)
    (post : Bool) (ans : Option String) (pick now : Nat) (target : Dog)
    (ht : findDog st dogId = some target)
    (hc : artistSongs (pyStrip (target.favoriteArtist.getD "")) ≠ [])
    (hk : k.getD "" ≠ "")
    (hf : (artistSongs (pyStrip (target.favoriteArtist.getD ""))).find?
        (fun c => c.key == k.getD "") = none) :
    songgate st uid dogId k post ans pick now = (st, .unknownChallenge) := by
  simp [songgate, ht, hk, isEmpty_false_of_ne_nil hc, hf]

lemma songgate_render (st : St) (uid : Nat) (dogId : Int) (k : Option String)
    (ans : Option String) (pick now : Nat) (target : Dog) (snip : Song)
    (ht : findDog st dogId = some target)
    (hc : artistSongs (pyStrip (target.favoriteArtist.getD "")) ≠ [])
    (hk : k.getD "" ≠ "")
    (hf : (artistSongs (pyStrip (target.favoriteArtist.getD ""))).find?
        (fun c => c.key == k.getD "") = some snip) :
    songgate st uid dogId k false ans pick now = (st, .renderChallenge (k.getD "")) := by
  simp [songgate, ht, hk, isEmpty_false_of_ne_nil hc, hf]

lemma songgate_retry (st : St) (uid : Nat) (dogId : Int) (k : Option String)
    (ans : Option String) (pick now : Nat) (target : Dog) (snip : Song)
    (ht : findDog st dogId = some target)
    (hc : artistSongs (pyStrip (target.favoriteArtist.getD "")) ≠ [])
    (hk : k.getD "" ≠ "")
    (hf : (artistSongs (pyStrip (target.favoriteArtist.getD ""))).find?
        (fun c => c.key == k.getD "") = some snip)
    (hwrong : ((snip.answers.map (fun x => pyLower x)).contains
        (pyLower (pyStrip (ans.getD "")))) = false) :
    songgate st uid dogId k true ans pick now = (st, .retry (k.getD "")) := by
  have hw := hwrong
  simp only [List.contains_eq_any_beq, List.any_map, List.any_eq_false,
    Function.comp, beq_iff_eq] at hw
  simp [songgate, ht, hk, isEmpty_false_of_ne_nil hc, hf]
  intro x hx heq
  exact hw x hx heq.symm

lemma songgate_pass (st : St) (uid : Nat) (dogId : Int) (k : Option String)
    (ans : Option String) (pick now : Nat) (target : Dog) (snip : Song)
    (ht : findDog st dogId = some target)
    (hc : artistSongs (pyStrip (target.favoriteArtist.getD "")) ≠ [])
    (hk : k.getD "" ≠ "")
    (hf : (artistSongs (pyStrip (target.favoriteArtist.getD ""))).find?
        (fun c => c.key == k.getD "") = some snip)
    (hright : ((snip.answers.map (fun x => pyLower x)).contains
        (pyLower (pyStrip (ans.getD "")))) = true) :
    songgate st uid dogId k true ans pick now =
      (finalize_like_then_redirect st uid dogId now, .passedFinalized) := by
  have hw := hright
  simp only [List.contains_eq_any_beq, List.any_map, List.any_eq_true,
    Function.comp, beq_iff_eq] at hw
  simp [songgate, ht, hk, isEmpty_false_of_ne_nil hc, hf]
  obtain ⟨x, hx, hxx⟩ := hw
  exact ⟨x, hx, hxx.symm⟩

/-! Lemmas about the feed maximum. -/

lemma maxByCreated_eq_none : ∀ {l : List Dog}, maxByCreated l = none → l = [] := by
  intro l h
  cases l with
  | nil => rfl
  | cons d ds =>
    exfalso
    simp only [maxByCreated] at h
    split at h
    · exact Option.noConfusion h
    · split at h <;> exact Option.noConfusion h

lemma maxByCreated_mem : ∀ {l : List Dog} {d : Dog}, maxByCreated l = some d → d ∈ l := by
  intro l
  induction l with
  | nil => intro d h; exact Option.noConfusion h
  | cons x xs ih =>
    intro d h
    simp only [maxByCreated] at h
    split at h
    · injection h with h
      subst h
      exact List.mem_cons_self x xs
    · rename_i b heq
      split at h
      · injection h with h
        subst h
        exact List.mem_cons_of_mem x (ih heq)
      · injection h with h
        subst h
        exact List.mem_cons_self x xs

lemma maxByCreated_max : ∀ {l : List Dog} {d : Dog}, maxByCreated l = some d →
    ∀ x ∈ l, x.createdAt ≤ d.createdAt := by
  intro l
  induction l with
  | nil => intro d _ x hx; exact absurd hx (List.not_mem_nil x)
  | cons y ys ih =>
    intro d h x hx
    simp only [maxByCreated] at h
    split at h
    · rename_i heq
      injection h with h
      subst h
      rcases List.mem_cons.mp hx with h1 | h1
      · rw [h1]
      · rw [maxByCreated_eq_none heq] at h1
        exact absurd h1 (List.not_mem_nil x)
    · rename_i b heq
      split at h
      · rename_i hcmp
        injection h with h
        subst h
        rcases List.mem_cons.mp hx with h1 | h1
        · rw [h1]; exact hcmp
        · exact ih heq x h1
      · rename_i hcmp
        injection h with h
        subst h
        rcases List.mem_cons.mp hx with h1 | h1
        · rw [h1]
        · exact le_trans (ih heq x h1) (le_of_not_ge hcmp)

/-! Remaining helper lemmas. -/

lemma pyInt_ne_empty {s : String} {n : Int} (hp : pyInt s = some n) : s ≠ "" := by
  intro h
  rw [h] at hp
  exact Option.noConfusion ((by decide : pyInt "" = none).symm.trans hp)

lemma pickChoice_mem {choices : List Song} (pick : Nat) (h : choices ≠ []) :
    pickChoice choices pick ∈ choices := by
  unfold pickChoice
  have hlen : 0 < choices.length := List.length_pos.mpr h
  have hidx : pick % choices.length < choices.length := Nat.mod_lt _ hlen
  rw [List.getD_eq_getElem?_getD, List.getElem?_eq_getElem hidx]
  exact List.getElem_mem hidx

lemma gatePosts_fixed (st : St) (uid : Nat) (dogId : Int) (key : String) (now : Nat) :
    ∀ answers : List String,
      (∀ a ∈ answers, (songgate st uid dogId (some key) true (some a) 0 now).1 = st) →
      gatePosts st uid dogId key answers now = st := by
  intro answers
  induction answers with
  | nil => intro _; rfl
  | cons a as ih =>
    intro h
    have h0 : (songgate st uid dogId (some key) true (some a) 0 now).1 = st :=
      h a (List.mem_cons_self a as)
    show gatePosts (songgate st uid dogId (some key) true (some a) 0 now).1
      uid dogId key as now = st
    rw [h0]
    exact ih (fun x hx => h x (List.mem_cons_of_mem a hx))

/-! The claim theorems. -/

/-- C7: for every viewer, `discover` returns a profile whose owner is not
the viewer and toward which the viewer holds no preference row of either
sign, maximal in creation time among all such profiles; it returns `none`
exactly when no profile qualifies. -/
theorem C7_discover_returns_newest_unseen (st : St) (uid : Nat) :
    (discover st uid = none → ∀ d ∈ st.dogs, feedCand st uid d = false) ∧
    (∀ d : Dog, discover st uid = some d →
      d ∈ st.dogs ∧ feedCand st uid d = true ∧
      ∀ e ∈ st.dogs, feedCand st uid e = true → e.createdAt ≤ d.createdAt) := by
  constructor
  · intro h d hd
    have hnil : st.dogs.filter (feedCand st uid) = [] := maxByCreated_eq_none h
    cases hcv : feedCand st uid d with
    | false => rfl
    | true =>
      exfalso
      have hmem : d ∈ st.dogs.filter (feedCand st uid) := List.mem_filter.mpr ⟨hd, hcv⟩
      rw [hnil] at hmem
      exact absurd hmem (List.not_mem_nil d)
  · intro d h
    have hmem : d ∈ st.dogs.filter (feedCand st uid) := maxByCreated_mem h
    have hm2 := List.mem_filter.mp hmem
    refine ⟨hm2.1, hm2.2, ?_⟩
    intro e he hce
    exact maxByCreated_max h e (List.mem_filter.mpr ⟨he, hce⟩)

/-- Witness for C7 at a concrete state: viewer 1 is shown dog 2. -/
theorem C7_witness :
    dogW2 ∈ stW.dogs ∧ feedCand stW 1 dogW2 = true ∧
      dogW2.createdAt ≤ dogW2.createdAt := by
  have h := (C7_discover_returns_newest_unseen stW 1).2 dogW2 (by decide)
  exact ⟨h.1, h.2.1, h.2.2 dogW2 (by decide) (by decide)⟩

/-- C8: when the target profile's favorite-artist tag (after stripping;
an unset tag reads as the empty string) has no challenges in the catalog,
the gate finalizes the like immediately — the +1 row is upserted and the
match flash is shown — with no challenge presented. -/
theorem C8_skip_gate_without_challenges (st : St) (uid : Nat) (dogId : Int)
    (k : Option String) (post : Bool) (ans : Option String) (pick now : Nat) (target : Dog)
    (ht : findDog st dogId = some target)
    (hc : artistSongs (pyStrip (target.favoriteArtist.getD "")) = []) :
    songgate st uid dogId k post ans pick now =
      (finalize_like_then_redirect st uid dogId now, GateResp.skippedFinalized) ∧
    hasPlusOne (songgate st uid dogId k post ans pick now).1 uid dogId = true := by
  have h := songgate_skip st uid dogId k post ans pick now target ht hc
  refine ⟨h, ?_⟩
  rw [h]
  show hasPlusOne (upsertLike st uid dogId 1 now) uid dogId = true
  exact hasPlusOne_upsert_one st uid dogId now

/-- Witness for C8 at a concrete state whose dog carries an empty-string
artist tag. -/
theorem C8_witness :
    songgate stW8 2 1 (some "drake_godsplan") true (some "x") 3 7 =
      (finalize_like_then_redirect stW8 2 1 7, GateResp.skippedFinalized) ∧
    hasPlusOne (songgate stW8 2 1 (some "drake_godsplan") true (some "x") 3 7).1 2 1 = true :=
  C8_skip_gate_without_challenges stW8 2 1 (some "drake_godsplan") true (some "x") 3 7
    ⟨1, 1, some "", 0⟩ (by decide) (by decide)

/-- C10: a dislike swipe with a well-formed target id upserts the -1 row
unconditionally — the statement quantifies over every state, including
states where the acting user owns no profile and no dog with the target id
exists, because the own-profile and target-existence checks sit in the like
branch only. -/
theorem C10_dislike_skips_all_checks (st : St) (uid : Nat) (s : String) (dogId : Int)
    (now : Nat) (hp : pyInt s = some dogId) :
    swipe st uid (some s) (some "dislike") now =
      (upsertLike st uid dogId (-1) now, SwipeResp.disliked) :=
  swipe_dislike st uid (some s) (some "dislike") now dogId (pyInt_ne_empty hp) rfl hp

/-- Witness for C10 on the empty database: no dog and no own profile exist,
yet the dislike row is recorded. -/
theorem C10_witness :
    swipe stEmpty 1 (some "7") (some "dislike") 3 =
      (upsertLike stEmpty 1 7 (-1) 3, SwipeResp.disliked) :=
  C10_dislike_skips_all_checks stEmpty 1 "7" 7 3 (by decide)

/-- C4: for a gate session holding a valid challenge key, any sequence of
submissions whose normalized answers all miss the challenge's normalized
accepted set leaves the store exactly as it was (so no +1 row is created)
and answers every submission with a retry of the same key. -/
theorem C4_wrong_answers_never_finalize (st : St) (uid : Nat) (dogId : Int) (key : String)
    (answers : List String) (now : Nat) (target : Dog) (snip : Song)
    (ht : findDog st dogId = some target)
    (hk : key ≠ "")
    (hf : (artistSongs (pyStrip (target.favoriteArtist.getD ""))).find?
        (fun c => c.key == key) = some snip)
    (hwrong : ∀ a ∈ answers, ((snip.answers.map (fun x => pyLower x)).contains
        (pyLower (pyStrip a))) = false) :
    gatePosts st uid dogId key answers now = st ∧
    ∀ a ∈ answers, songgate st uid dogId (some key) true (some a) 0 now =
      (st, GateResp.retry key) := by
  have hc : artistSongs (pyStrip (target.favoriteArtist.getD "")) ≠ [] := by
    intro h
    rw [h] at hf
    exact Option.noConfusion hf
  have hstep : ∀ a ∈ answers, songgate st uid dogId (some key) true (some a) 0 now =
      (st, GateResp.retry key) := fun a ha =>
    songgate_retry st uid dogId (some key) (some a) 0 now target snip ht hc hk hf
      (hwrong a ha)
  exact ⟨gatePosts_fixed st uid dogId key now answers (fun a ha => by rw [hstep a ha]), hstep⟩

/-- Witness for C4: two wrong answers at the Drake gate leave the store
unchanged and re-present the same key. -/
theorem C4_witness :
    gatePosts stMut 2 1 "drake_godsplan" ["wrong", "also wrong"] 9 = stMut ∧
    songgate stMut 2 1 (some "drake_godsplan") true (some "wrong") 0 9 =
      (stMut, GateResp.retry "drake_godsplan") := by
  have h := C4_wrong_answers_never_finalize stMut 2 1 "drake_godsplan"
    ["wrong", "also wrong"] 9 dogW1
    ⟨"drake_godsplan", "God\x27s Plan", "/static/audio/godsplan.mp3",
      ["god\x27s plan", "gods plan"]⟩
    (by decide) (by decide) (by decide) (by decide)
  exact ⟨h.1, h.2 "wrong" (by decide)⟩

/-- C5: swipes are idempotent and the preference table is keyed: repeating
an identical swipe any number of times leaves the same store as one
submission; repeating the raw upsert likewise; on a key-unique store the
upsert leaves exactly one row for the pair, carrying the new value and
timestamp; and a dislike followed by a like leaves a single +1 row with the
second timestamp, never two rows. -/
theorem C5_upsert_idempotent_keyed :
    (∀ (st : St) (uid : Nat) (f a : Option String) (now n : Nat),
        swipeIter st uid f a now (n + 1) = swipeIter st uid f a now 1) ∧
    (∀ (st : St) (u : Nat) (d : Int) (v : Int) (t : Nat) (n : Nat),
        upsertIter st u d v t (n + 1) = upsertIter st u d v t 1) ∧
    (∀ (st : St) (u : Nat) (d : Int) (v : Int) (t : Nat), noDupKeys st.likes = true →
        noDupKeys (upsertLike st u d v t).likes = true ∧
        (upsertLike st u d v t).likes.filter (keyIs u d) = [⟨u, d, v, t⟩]) ∧
    (∀ (st : St) (u : Nat) (d : Int) (t1 t2 : Nat), noDupKeys st.likes = true →
        (upsertLike (upsertLike st u d (-1) t1) u d 1 t2).likes.filter (keyIs u d)
          = [⟨u, d, 1, t2⟩]) := by
  refine ⟨?_, ?_, ?_, ?_⟩
  · intro st uid f a now n
    induction n with
    | zero => rfl
    | succ n ih =>
      show (swipe (swipeIter st uid f a now (n + 1)) uid f a now).1 = _
      rw [ih]
      exact swipe_state_idem st uid f a now
  · intro st u d v t n
    induction n with
    | zero => rfl
    | succ n ih =>
      show upsertLike (upsertIter st u d v t (n + 1)) u d v t = _
      rw [ih]
      exact upsertLike_idem st u d v t
  · intro st u d v t h
    exact ⟨noDupKeys_upsertLike st u d v t h, filter_upsertRows_self u d v t st.likes h⟩
  · intro st u d t1 t2 h
    exact filter_upsertRows_self u d 1 t2 (upsertLike st u d (-1) t1).likes
      (noDupKeys_upsertLike st u d (-1) t1 h)

/-- Witness for C5: on a concrete key-unique store, a dislike re-expressed
as a like leaves the single row with value +1 and the later timestamp. -/
theorem C5_witness :
    (upsertLike (upsertLike stW 2 1 (-1) 30) 2 1 1 31).likes.filter (keyIs 2 1)
      = [⟨2, 1, 1, 31⟩] :=
  C5_upsert_idempotent_keyed.2.2.2 stW 2 1 30 31 (by decide)

/-- C6 fails as stated: a swipe whose target id is present but not numeric
reaches `int(dog_id)` and raises an uncaught `ValueError` (HTTP 500) rather
than being rejected with a user-correctable message — though the store is
indeed left unchanged. -/
theorem C6_counterexample :
    swipe stEmpty 1 (some "abc") (some "like") 0 = (stEmpty, SwipeResp.exn) ∧
    SwipeResp.exn ≠ SwipeResp.invalid := by
  constructor
  · decide
  · decide

/-- C6 amended: a swipe with a missing/empty target id or a direction
outside like/dislike is rejected with the "Invalid swipe." flash and no
state change; a present but non-numeric target id instead raises an
uncaught error — still with no state change, but with no user-facing
message. -/
theorem C6_invalid_input_rejected :
    (∀ (st : St) (uid : Nat) (f a : Option String) (now : Nat),
        f.getD "" = "" ∨ (a ≠ some "like" ∧ a ≠ some "dislike") →
        swipe st uid f a now = (st, SwipeResp.invalid)) ∧
    (∀ (st : St) (uid : Nat) (s : String) (a : Option String) (now : Nat),
        s ≠ "" → pyInt s = none → (a = some "like" ∨ a = some "dislike") →
        swipe st uid (some s) a now = (st, SwipeResp.exn)) :=
  ⟨fun st uid f a now h => swipe_invalid st uid f a now h,
   fun st uid s a now hs hp ha => swipe_exn st uid (some s) a now hs ha hp⟩

/-- Witness for the amended C6 on concrete requests. -/
theorem C6_witness :
    swipe stEmpty 1 (some "1") (some "superlike") 0 = (stEmpty, SwipeResp.invalid) ∧
    swipe stEmpty 1 (some "12 monkeys") (some "like") 0 = (stEmpty, SwipeResp.exn) :=
  ⟨C6_invalid_input_rejected.1 stEmpty 1 (some "1") (some "superlike") 0
      (Or.inr ⟨by decide, by decide⟩),
   C6_invalid_input_rejected.2 stEmpty 1 "12 monkeys" (some "like") 0
      (by decide) (by decide) (Or.inl rfl)⟩

/-- C3 fails as stated: user 1 holds a live -1 toward dog 20, dog 20's
owner likes user 1's dog, and dog 20 still appears in user 1's pending
list, because the pending anti-join only excludes a +1 from the viewer. -/
theorem C3_counterexample :
    stC3.likes.filter (keyIs 1 20) = [⟨1, 20, -1, 1⟩] ∧
    my_dog_id stC3 1 = some 10 ∧
    dogP ∈ pending_matches stC3 1 10 := by
  refine ⟨by decide, by decide, by decide⟩

/-- C3 amended: a profile the user has disliked never appears in the
confirmed list, but it appears in the pending list exactly when its owner
holds a +1 toward the user's dog — the dislike does not remove it from
pending. -/
theorem C3_dislike_only_blocks_confirmed (st : St) (uid : Nat) (P : Dog) (mydog : Int)
    (hex : ∃ r ∈ st.likes, r.userId = uid ∧ r.targetDogId = P.id ∧ r.value = -1)
    (hdis : ∀ r ∈ st.likes, r.userId = uid → r.targetDogId = P.id → r.value = -1) :
    P ∉ confirmed_matches st uid mydog ∧
    (P ∈ pending_matches st uid mydog ↔
      (P ∈ st.dogs ∧ P.userId ≠ uid ∧ hasPlusOne st P.userId mydog = true)) := by
  have hno : hasPlusOne st uid P.id = false := by
    cases hh : hasPlusOne st uid P.id with
    | false => rfl
    | true =>
      exfalso
      simp only [hasPlusOne, List.any_eq_true, Bool.and_eq_true, keyIs_eq_true,
        beq_iff_eq] at hh
      obtain ⟨r, hr, ⟨h1, h2⟩, h3⟩ := hh
      have hv := hdis r hr h1 h2
      rw [hv] at h3
      norm_num at h3
  constructor
  · intro hmem
    have h2 := (List.mem_filter.mp hmem).2
    simp only [Bool.and_eq_true] at h2
    rw [hno] at h2
    exact Bool.noConfusion h2.1.2
  · constructor
    · intro hmem
      have h2 := List.mem_filter.mp hmem
      simp only [Bool.and_eq_true, bne_iff_ne] at h2
      exact ⟨h2.1, h2.2.2, h2.2.1.1⟩
    · intro ⟨hdogs, hne, hinc⟩
      apply List.mem_filter.mpr
      refine ⟨hdogs, ?_⟩
      simp [hinc, hno, hne]

/-- Witness for the amended C3 at the concrete dislike scenario. -/
theorem C3_witness :
    dogP ∉ confirmed_matches stC3 1 10 ∧
    (dogP ∈ pending_matches stC3 1 10 ↔
      (dogP ∈ stC3.dogs ∧ dogP.userId ≠ 1 ∧ hasPlusOne stC3 dogP.userId 10 = true)) :=
  C3_dislike_only_blocks_confirmed stC3 1 dogP 10
    ⟨⟨1, 20, -1, 1⟩, by decide, by decide, by decide, by decide⟩
    (by decide)

/-- C2 fails as stated: the gate route is directly reachable, so finalize
runs in a state where the target's owner holds no +1 at all — a user with
no profile opens `/songgate/1` for a dog whose artist has no challenges,
the +1 is upserted, and the pair is not mutual. -/
theorem C2_counterexample :
    songgate stray 2 1 none false none 0 5 =
      ({ stray with likes := [⟨2, 1, 1, 5⟩] }, GateResp.skippedFinalized) ∧
    (({ stray with likes := [⟨2, 1, 1, 5⟩] } : St).likes.any
        (fun r => r.userId == 1 && r.value == 1)) = false := by
  refine ⟨by decide, by decide⟩

/-- C2 amended: finalize unconditionally upserts the +1 for the acting
user, and whenever the target's owner already holds a +1 toward the acting
user's profile — the state the route-to-gate flow establishes — the pair is
mutual afterward (the target joins the actor's confirmed list); the gate
performs no mutuality check of its own, so reaching finalize outside that
flow need not produce a match. -/
theorem C2_finalize_makes_mutual_given_reciprocal :
    (∀ (st : St) (uid : Nat) (dogId : Int) (now : Nat),
        hasPlusOne (finalize_like_then_redirect st uid dogId now) uid dogId = true) ∧
    (∀ (st : St) (uid : Nat) (dogId : Int) (now : Nat) (target : Dog) (mine : Int),
        findDog st dogId = some target →
        my_dog_id st uid = some mine →
        target.userId ≠ uid →
        hasPlusOne st target.userId mine = true →
        target ∈ confirmed_matches (finalize_like_then_redirect st uid dogId now) uid mine) := by
  constructor
  · intro st uid dogId now
    show hasPlusOne (upsertLike st uid dogId 1 now) uid dogId = true
    exact hasPlusOne_upsert_one st uid dogId now
  · intro st uid dogId now target mine ht hm hne hrecip
    have htid : target.id = dogId := by
      have := List.find?_some ht
      simpa using this
    have htmem : target ∈ st.dogs := List.mem_of_find?_eq_some ht
    apply List.mem_filter.mpr
    constructor
    · show target ∈ (upsertLike st uid dogId 1 now).dogs
      rw [dogs_upsertLike]
      exact htmem
    · have h1 : hasPlusOne (upsertLike st uid dogId 1 now) uid target.id = true := by
        rw [htid]
        exact hasPlusOne_upsert_one st uid dogId now
      have h2 : hasPlusOne (upsertLike st uid dogId 1 now) target.userId mine = true := by
        rw [hasPlusOne_upsert_ne st target.userId uid mine dogId 1 now (Or.inl hne)]
        exact hrecip
      show (_ && _ && _) = true
      simp only [Bool.and_eq_true, bne_iff_ne]
      exact ⟨⟨hne, h1⟩, h2⟩

/-- Witness for the amended C2: user 2 finalizes toward dog 1 after user 1
already liked dog 2, and dog 1 lands in user 2's confirmed list. -/
theorem C2_witness :
    dogW1 ∈ confirmed_matches (finalize_like_then_redirect stMut 2 1 9) 2 2 :=
  C2_finalize_makes_mutual_given_reciprocal.2 stMut 2 1 9 dogW1 2
    (by decide) (by decide) (by decide) (by decide)

/-- C9 fails as stated: when the target's artist has zero challenges, the
empty-catalog skip runs before the key check, so a request carrying a key
that is certainly not in the artist's (empty) challenge set finalizes the
like instead of aborting — the +1 row appears. -/
theorem C9_counterexample :
    (artistSongs "Nobody").map Song.key = [] ∧
    findDog stray 1 = some ⟨1, 1, some "Nobody", 0⟩ ∧
    hasPlusOne stray 2 1 = false ∧
    songgate stray 2 1 (some "drake_godsplan") false none 0 5 =
      ({ stray with likes := [⟨2, 1, 1, 5⟩] }, GateResp.skippedFinalized) ∧
    hasPlusOne ({ stray with likes := [⟨2, 1, 1, 5⟩] } : St) 2 1 = true := by
  refine ⟨by decide, by decide, by decide, by decide, by decide⟩

/-- C9 amended: when the target profile is gone the gate aborts to the feed
with no state change, and when the artist has at least one challenge but
the supplied key is not among them the gate aborts with "Audio not found."
and no state change; if the artist has zero challenges the gate instead
skips and finalizes (per C8), whatever key is supplied. -/
theorem C9_stale_key_aborts :
    (∀ (st : St) (uid : Nat) (dogId : Int) (k : Option String) (post : Bool)
        (ans : Option String) (pick now : Nat),
        findDog st dogId = none →
        songgate st uid dogId k post ans pick now = (st, GateResp.profileGone)) ∧
    (∀ (st : St) (uid : Nat) (dogId : Int) (k : Option String) (post : Bool)
        (ans : Option String) (pick now : Nat) (target : Dog),
        findDog st dogId = some target →
        artistSongs (pyStrip (target.favoriteArtist.getD "")) ≠ [] →
        k.getD "" ≠ "" →
        (artistSongs (pyStrip (target.favoriteArtist.getD ""))).find?
          (fun c => c.key == k.getD "") = none →
        songgate st uid dogId k post ans pick now = (st, GateResp.unknownChallenge)) :=
  ⟨fun st uid dogId k post ans pick now ht =>
      songgate_profileGone st uid dogId k post ans pick now ht,
   fun st uid dogId k post ans pick now target ht hc hk hf =>
      songgate_unknown st uid dogId k post ans pick now target ht hc hk hf⟩

/-- Witness for the amended C9: a gate request for a missing dog aborts,
and a Drake gate queried with another artist's key aborts unchanged. -/
theorem C9_witness :
    songgate stMut 2 99 none false none 0 3 = (stMut, GateResp.profileGone) ∧
    songgate stMut 2 1 (some "miley_flowers") true (some "flowers") 0 3 =
      (stMut, GateResp.unknownChallenge) :=
  ⟨C9_stale_key_aborts.1 stMut 2 99 none false none 0 3 (by decide),
   C9_stale_key_aborts.2 stMut 2 1 (some "miley_flowers") true (some "flowers") 0 3 dogW1
      (by decide) (by decide) (by decide) (by decide)⟩

/-- C1: ordering of the mutual-match protocol, as four facts that hold in
every state and hence along every sequence of swipe and gate requests.
(1) A like with no reciprocal +1 (the first liker) upserts immediately and
returns Recorded — no gate.  (2) A like whose reciprocal +1 exists (the
mutuality-completing second liker) is routed to the gate with the store
untouched.  (3) Entering the gate for a target whose artist has at least
one challenge presents one of that artist's challenge keys, store
untouched.  (4) In any state where the reciprocal +1 exists, the second
liker's own +1 is absent, and the target's artist has at least one
challenge, the only single request that can create that +1 is a gate POST
by that user on that target carrying a valid challenge key and an answer
whose normalization is in the accepted set — the gate must be passed. -/
theorem C1_second_liker_always_gated :
    (∀ (st : St) (uid : Nat) (s : String) (dogId : Int) (target : Dog) (mine : Int)
        (now : Nat),
        pyInt s = some dogId →
        my_dog_id st uid = some mine →
        findDog st dogId = some target →
        hasPlusOne st target.userId mine = false →
        swipe st uid (some s) (some "like") now =
          (upsertLike st uid dogId 1 now, SwipeResp.recorded)) ∧
    (∀ (st : St) (uid : Nat) (s : String) (dogId : Int) (target : Dog) (mine : Int)
        (now : Nat),
        pyInt s = some dogId →
        my_dog_id st uid = some mine →
        findDog st dogId = some target →
        hasPlusOne st target.userId mine = true →
        swipe st uid (some s) (some "like") now = (st, SwipeResp.routeToGate dogId)) ∧
    (∀ (st : St) (uid : Nat) (dogId : Int) (target : Dog) (post : Bool)
        (ans : Option String) (pick now : Nat),
        findDog st dogId = some target →
        artistSongs (pyStrip (target.favoriteArtist.getD "")) ≠ [] →
        ∃ c ∈ artistSongs (pyStrip (target.favoriteArtist.getD "")),
          songgate st uid dogId none post ans pick now =
            (st, GateResp.redirectWithKey c.key)) ∧
    (∀ (st : St) (e : Ev) (now : Nat) (uid : Nat) (dogId : Int) (target : Dog),
        findDog st dogId = some target →
        artistSongs (pyStrip (target.favoriteArtist.getD "")) ≠ [] →
        (∀ m, my_dog_id st uid = some m → hasPlusOne st target.userId m = true) →
        hasPlusOne st uid dogId = false →
        hasPlusOne (stepEv st e now) uid dogId = true →
        ∃ (k : String) (ans : Option String) (pick : Nat) (snip : Song),
          e = Ev.gateEv uid dogId (some k) true ans pick ∧
          (artistSongs (pyStrip (target.favoriteArtist.getD ""))).find?
            (fun c => c.key == k) = some snip ∧
          ((snip.answers.map (fun x => pyLower x)).contains
            (pyLower (pyStrip (ans.getD "")))) = true) := by
  refine ⟨?_, ?_, ?_, ?_⟩
  · intro st uid s dogId target mine now hp hm ht hmut
    exact swipe_recorded st uid (some s) (some "like") now dogId mine target
      (pyInt_ne_empty hp) rfl hp hm ht hmut
  · intro st uid s dogId target mine now hp hm ht hmut
    exact swipe_routeToGate st uid (some s) (some "like") now dogId mine target
      (pyInt_ne_empty hp) rfl hp hm ht hmut
  · intro st uid dogId target post ans pick now ht hc
    exact ⟨pickChoice (artistSongs (pyStrip (target.favoriteArtist.getD ""))) pick,
      pickChoice_mem pick hc,
      songgate_redirectKey st uid dogId none post ans pick now target ht hc rfl⟩
  · intro st e now uid dogId target ht hchal hrecip hno hafter
    cases e with
    | swipeEv uid2 f a =>
      exfalso
      simp only [stepEv] at hafter
      by_cases h1 : f.getD "" = ""
      · rw [swipe_invalid st uid2 f a now (Or.inl h1)] at hafter
        have h2 : hasPlusOne st uid dogId = true := hafter
        rw [hno] at h2
        exact Bool.noConfusion h2
      · by_cases hl : a = some "like"
        · cases hp : pyInt (f.getD "") with
          | none =>
            rw [swipe_exn st uid2 f a now h1 (Or.inl hl) hp] at hafter
            have h2 : hasPlusOne st uid dogId = true := hafter
            rw [hno] at h2
            exact Bool.noConfusion h2
          | some n =>
            cases hm : my_dog_id st uid2 with
            | none =>
              rw [swipe_noOwnProfile st uid2 f a now n h1 hl hp hm] at hafter
              have h2 : hasPlusOne st uid dogId = true := hafter
              rw [hno] at h2
              exact Bool.noConfusion h2
            | some m2 =>
              cases ht2 : findDog st n with
              | none =>
                rw [swipe_targetGone st uid2 f a now n m2 h1 hl hp hm ht2] at hafter
                have h2 : hasPlusOne st uid dogId = true := hafter
                rw [hno] at h2
                exact Bool.noConfusion h2
              | some t2 =>
                by_cases hmut : hasPlusOne st t2.userId m2 = true
                · rw [swipe_routeToGate st uid2 f a now n m2 t2 h1 hl hp hm ht2 hmut]
                    at hafter
                  have h2 : hasPlusOne st uid dogId = true := hafter
                  rw [hno] at h2
                  exact Bool.noConfusion h2
                · have hmutf : hasPlusOne st t2.userId m2 = false := by simpa using hmut
                  rw [swipe_recorded st uid2 f a now n m2 t2 h1 hl hp hm ht2 hmutf]
                    at hafter
                  have h2 : hasPlusOne (upsertLike st uid2 n 1 now) uid dogId = true :=
                    hafter
                  by_cases hkey : uid = uid2 ∧ dogId = n
                  · obtain ⟨hq, hd⟩ := hkey
                    subst hq
                    subst hd
                    rw [ht] at ht2
                    injection ht2 with htt
                    rw [← htt] at hmutf
                    rw [hrecip m2 hm] at hmutf
                    exact Bool.noConfusion hmutf
                  · have hne2 : uid ≠ uid2 ∨ dogId ≠ n := by
                      by_cases hq : uid = uid2
                      · right; intro hdd; exact hkey ⟨hq, hdd⟩
                      · left; exact hq
                    rw [hasPlusOne_upsert_ne st uid uid2 dogId n 1 now hne2, hno] at h2
                    exact Bool.noConfusion h2
        · by_cases hd : a = some "dislike"
          · cases hp : pyInt (f.getD "") with
            | none =>
              rw [swipe_exn st uid2 f a now h1 (Or.inr hd) hp] at hafter
              have h2 : hasPlusOne st uid dogId = true := hafter
              rw [hno] at h2
              exact Bool.noConfusion h2
            | some n =>
              rw [swipe_dislike st uid2 f a now n h1 hd hp] at hafter
              have h2 : hasPlusOne (upsertLike st uid2 n (-1) now) uid dogId = true :=
                hafter
              by_cases hkey : uid = uid2 ∧ dogId = n
              · obtain ⟨hq, hdd⟩ := hkey
                subst hq
                subst hdd
                rw [hasPlusOne_upsert_neg st uid dogId (-1) now hno (by decide)] at h2
                exact Bool.noConfusion h2
              · have hne2 : uid ≠ uid2 ∨ dogId ≠ n := by
                  by_cases hq : uid = uid2
                  · right; intro hdd; exact hkey ⟨hq, hdd⟩
                  · left; exact hq
                rw [hasPlusOne_upsert_ne st uid uid2 dogId n (-1) now hne2, hno] at h2
                exact Bool.noConfusion h2
          · rw [swipe_invalid st uid2 f a now (Or.inr ⟨hl, hd⟩)] at hafter
            have h2 : hasPlusOne st uid dogId = true := hafter
            rw [hno] at h2
            exact Bool.noConfusion h2
    | gateEv uid2 d2 k2 post2 ans2 pick2 =>
      simp only [stepEv] at hafter
      cases ht2 : findDog st d2 with
      | none =>
        exfalso
        rw [songgate_profileGone st uid2 d2 k2 post2 ans2 pick2 now ht2] at hafter
        have h2 : hasPlusOne st uid dogId = true := hafter
        rw [hno] at h2
        exact Bool.noConfusion h2
      | some t2 =>
        by_cases hc2 : artistSongs (pyStrip (t2.favoriteArtist.getD "")) = []
        · exfalso
          rw [songgate_skip st uid2 d2 k2 post2 ans2 pick2 now t2 ht2 hc2] at hafter
          have h2 : hasPlusOne (upsertLike st uid2 d2 1 now) uid dogId = true := hafter
          by_cases hkey : uid = uid2 ∧ dogId = d2
          · obtain ⟨hq, hd⟩ := hkey
            subst hq
            subst hd
            rw [ht] at ht2
            injection ht2 with htt
            rw [htt] at hchal
            exact hchal hc2
          · have hne2 : uid ≠ uid2 ∨ dogId ≠ d2 := by
              by_cases hq : uid = uid2
              · right; intro hdd; exact hkey ⟨hq, hdd⟩
              · left; exact hq
            rw [hasPlusOne_upsert_ne st uid uid2 dogId d2 1 now hne2, hno] at h2
            exact Bool.noConfusion h2
        · by_cases hk0 : k2.getD "" = ""
          · exfalso
            rw [songgate_redirectKey st uid2 d2 k2 post2 ans2 pick2 now t2 ht2 hc2 hk0]
              at hafter
            have h2 : hasPlusOne st uid dogId = true := hafter
            rw [hno] at h2
            exact Bool.noConfusion h2
          · cases hf : (artistSongs (pyStrip (t2.favoriteArtist.getD ""))).find?
                (fun c => c.key == k2.getD "") with
            | none =>
              exfalso
              rw [songgate_unknown st uid2 d2 k2 post2 ans2 pick2 now t2 ht2 hc2 hk0 hf]
                at hafter
              have h2 : hasPlusOne st uid dogId = true := hafter
              rw [hno] at h2
              exact Bool.noConfusion h2
            | some snip =>
              cases post2 with
              | false =>
                exfalso
                rw [songgate_render st uid2 d2 k2 ans2 pick2 now t2 snip ht2 hc2 hk0 hf]
                  at hafter
                have h2 : hasPlusOne st uid dogId = true := hafter
                rw [hno] at h2
                exact Bool.noConfusion h2
              | true =>
                by_cases hans : ((snip.answers.map (fun x => pyLower x)).contains
                    (pyLower (pyStrip (ans2.getD "")))) = true
                · rw [songgate_pass st uid2 d2 k2 ans2 pick2 now t2 snip ht2 hc2 hk0 hf
                      hans] at hafter
                  have h2 : hasPlusOne (upsertLike st uid2 d2 1 now) uid dogId = true :=
                    hafter
                  by_cases hkey : uid = uid2 ∧ dogId = d2
                  · obtain ⟨hq, hd⟩ := hkey
                    subst hq
                    subst hd
                    rw [ht] at ht2
                    injection ht2 with htt
                    cases k2 with
                    | none => exact absurd rfl hk0
                    | some ks =>
                      refine ⟨ks, ans2, pick2, snip, rfl, ?_, ?_⟩
                      · rw [htt]
                        exact hf
                      · exact hans
                  · exfalso
                    have hne2 : uid ≠ uid2 ∨ dogId ≠ d2 := by
                      by_cases hq : uid = uid2
                      · right; intro hdd; exact hkey ⟨hq, hdd⟩
                      · left; exact hq
                    rw [hasPlusOne_upsert_ne st uid uid2 dogId d2 1 now hne2, hno] at h2
                    exact Bool.noConfusion h2
                · exfalso
                  have hansf : ((snip.answers.map (fun x => pyLower x)).contains
                      (pyLower (pyStrip (ans2.getD "")))) = false := by simpa using hans
                  rw [songgate_retry st uid2 d2 k2 ans2 pick2 now t2 snip ht2 hc2 hk0 hf
                    hansf] at hafter
                  have h2 : hasPlusOne st uid dogId = true := hafter
                  rw [hno] at h2
                  exact Bool.noConfusion h2

/-- Witness for C1: user 1 already likes dog 2; the one request that
creates the +1 of user 2 toward dog 1 is the gate POST with the Drake key
and a correct (case-insensitive, padded) answer, and the theorem recovers
exactly that key and answer. -/
theorem C1_witness :
    ∃ (k : String) (ans : Option String) (pick : Nat) (snip : Song),
      Ev.gateEv 2 1 (some "drake_godsplan") true (some " GODS PLAN ") 0
        = Ev.gateEv 2 1 (some k) true ans pick ∧
      (artistSongs (pyStrip (dogW1.favoriteArtist.getD ""))).find?
        (fun c => c.key == k) = some snip ∧
      ((snip.answers.map (fun x => pyLower x)).contains
        (pyLower (pyStrip (ans.getD "")))) = true :=
  C1_second_liker_always_gated.2.2.2 stMut
    (Ev.gateEv 2 1 (some "drake_godsplan") true (some " GODS PLAN ") 0) 9 2 1 dogW1
    (by decide) (by decide)
    (fun m hm => by
      injection hm with h
      rw [← h]
      decide)
    (by decide) (by decide)

end Barkr
